import Mathlib

/-!
Verification of the counting-bloom-filter core (gem5-style `bloom_filter`
family: the abstract base filter, the XOR-folding block filter and the
collision-free perfect/oracle filter).  The repository slice contains only
the unit tests (`base.test.cc`, `block_bloom_filter.test.cc`,
`perfect_bloom_filter.test.cc`); the filter implementations themselves are
modelled from the specification and cross-checked against the literal test
vectors of those test files.
-/

/-- Modelled from the spec: width in bits of an address (`Addr` is a 64-bit
unsigned integer in the source). -/
def addrBits : Nat := 64

/-- Modelled from the spec: saturation ceiling of a `numBits`-wide counter,
`2 ^ counterWidth - 1`. -/
def ceilOf (numBits : Nat) : Nat := 2 ^ numBits - 1

/-- Modelled from the spec: saturating increment of a `w`-bit counter. -/
def satIncr (w c : Nat) : Nat := min (c + 1) (ceilOf w)

/-- Modelled from the spec: construction parameters shared by all filter
variants (`size`, `offset_bits`, `num_bits`, `threshold` in the params
structs of the tests). -/
structure BaseParams where
  size : Nat
  offsetBits : Nat
  numBits : Nat
  threshold : Nat
deriving DecidableEq

/-- Modelled from the spec: the state of the abstract base filter, missing
from the slice (`base/filters/base.hh`): the configuration plus the table of
saturating counters. -/
structure Base where
  size : Nat
  offsetBits : Nat
  numBits : Nat
  threshold : Nat
  filter : List Nat
deriving DecidableEq

/-- Modelled from the spec: a freshly constructed base filter owns a table of
`size` counters, all zero. -/
def Base.init (p : BaseParams) : Base :=
  ⟨p.size, p.offsetBits, p.numBits, p.threshold, List.replicate p.size 0⟩

/-- Counter value stored at table index `i` (out-of-range reads as 0). -/
def Base.getCountIndex (f : Base) (i : Nat) : Nat := f.filter.getD i 0

/-- Modelled from the spec: increment the counter at index `i` by 1,
saturating at the ceiling. -/
def Base.setIndex (f : Base) (i : Nat) : Base :=
  { f with filter := f.filter.set i (satIncr f.numBits (f.filter.getD i 0)) }

/-- Modelled from the spec: decrement the counter at index `i` by 1, floored
at 0. -/
def Base.unsetIndex (f : Base) (i : Nat) : Base :=
  { f with filter := f.filter.set i (f.filter.getD i 0 - 1) }

/-- Modelled from the spec: a slot reads as set when its counter has reached
the threshold. -/
def Base.isSetIndex (f : Base) (i : Nat) : Bool :=
  decide (f.threshold ≤ f.getCountIndex i)

/-- Modelled from the spec: total count is the sum of all counters in the
table. -/
def Base.getTotalCount (f : Base) : Nat := f.filter.sum

/-- Modelled from the spec: `clear()` resets every counter to 0. -/
def Base.clear (f : Base) : Base :=
  { f with filter := f.filter.map (fun _ => 0) }

/-- Modelled from the spec: `merge(other)` requires equal `size` (fatal
otherwise, modelled as `none`); on success each caller counter becomes
`min (this + other, ceiling)` and the argument filter is returned unchanged
(it is read-only in the source signature). -/
def Base.merge (a b : Base) : Option (Base × Base) :=
  if a.size = b.size then
    some ({ a with
            filter := List.zipWith (fun x y => min (x + y) (ceilOf a.numBits))
              a.filter b.filter }, b)
  else
    none

/-- Modelled from the spec: block-filter parameters add the two parallel mask
descriptor lists (`masks_lsbs`, `masks_sizes`). -/
structure BlockParams extends BaseParams where
  masksLSBs : List Nat
  masksSizes : List Nat
deriving DecidableEq

/-- Modelled from the spec: the block (address-folding) filter state, missing
from the slice (`base/filters/block_bloom_filter.hh`): a base filter plus the
mask descriptors. -/
structure Block extends Base where
  masksLSBs : List Nat
  masksSizes : List Nat
deriving DecidableEq

/-- Floor base-2 logarithm, computed with structural fuel so that it reduces
inside the kernel (`log2Fuel n n = Nat.log2 n` for every `n`). -/
def log2Fuel : Nat → Nat → Nat
  | 0, _ => 0
  | fuel + 1, n => if 2 ≤ n then log2Fuel fuel (n / 2) + 1 else 0

/-- Number of bits needed to index `size` slots: the floor of `log2 size`. -/
def floorLog2 (n : Nat) : Nat := log2Fuel n n

/-- Modelled from the spec: construction-time mask validation of the block
filter: at least one mask, parallel descriptor lists of equal length, every
mask within the address width, and no mask wider than `log2 size`. -/
def Block.validParams (p : BlockParams) : Bool :=
  decide (p.masksLSBs.length = p.masksSizes.length) &&
  decide (1 ≤ p.masksLSBs.length) &&
  (p.masksLSBs.zip p.masksSizes).all
    (fun m => decide (m.1 + m.2 ≤ addrBits) && decide (m.2 ≤ floorLog2 p.size))

/-- Modelled from the spec: block-filter construction validates the masks
(fatal on failure, modelled as `none`) and starts from a cleared table. -/
def Block.construct (p : BlockParams) : Option Block :=
  if Block.validParams p then
    some ⟨Base.init p.toBaseParams, p.masksLSBs, p.masksSizes⟩
  else
    none

/-- Modelled from the spec: the field a single mask `(lsb, width)` extracts
from the shifted address: `(shifted >> lsb) & ((1 << width) - 1)`. -/
def extractField (shifted lsb width : Nat) : Nat :=
  (shifted >>> lsb) &&& ((1 <<< width) - 1)

/-- Modelled from the spec: the block filter's index function: drop
`offsetBits` low bits, extract each mask's field, XOR-fold the fields. -/
def Block.hash (f : Block) (addr : Nat) : Nat :=
  (f.masksLSBs.zip f.masksSizes).foldl
    (fun h m => h ^^^ extractField (addr >>> f.offsetBits) m.1 m.2) 0

/-- Modelled from the spec: `set(addr)` on the block filter increments the
counter at `hash(addr)`, saturating. -/
def Block.set (f : Block) (addr : Nat) : Block :=
  { f with toBase := Base.setIndex f.toBase (Block.hash f addr) }

/-- Modelled from the spec: `unset(addr)` on the block filter decrements the
counter at `hash(addr)`, floored at 0. -/
def Block.unset (f : Block) (addr : Nat) : Block :=
  { f with toBase := Base.unsetIndex f.toBase (Block.hash f addr) }

/-- Counter value the block filter associates with `addr`. -/
def Block.getCount (f : Block) (addr : Nat) : Nat :=
  Base.getCountIndex f.toBase (Block.hash f addr)

/-- Modelled from the spec: membership is counter-at-threshold. -/
def Block.isSet (f : Block) (addr : Nat) : Bool :=
  decide (f.threshold ≤ f.getCount addr)

/-- Total count of the block filter (sum of the table). -/
def Block.getTotalCount (f : Block) : Nat := Base.getTotalCount f.toBase

/-- Modelled from the spec: `clear()` of the block filter resets the table. -/
def Block.clear (f : Block) : Block := { f with toBase := Base.clear f.toBase }

/-- Modelled from the spec: the block filter merges through the shared base
merge. -/
def Block.merge (a b : Block) : Option (Block × Block) :=
  match Base.merge a.toBase b.toBase with
  | some (a2, b2) => some ({ a with toBase := a2 }, { b with toBase := b2 })
  | none => none

/-- Modelled from the spec: the perfect (oracle) filter, missing from the
slice (`base/filters/perfect_bloom_filter.hh`): a sparse address-to-counter
map; no two distinct addresses ever share storage. -/
structure Oracle where
  entries : List (Nat × Nat)
deriving DecidableEq

/-- Modelled from the spec: the oracle filter forces `size = 1`,
`counterWidth = 1`, `threshold = 1`; any other configuration is a
construction error (modelled as `none`). -/
def Oracle.construct (p : BaseParams) : Option Oracle :=
  if p.size = 1 ∧ p.numBits = 1 ∧ p.threshold = 1 then some ⟨[]⟩ else none

/-- Counter value the oracle filter associates with `addr` (absent keys read
as 0). -/
def Oracle.getCount (f : Oracle) (addr : Nat) : Nat :=
  (f.entries.lookup addr).getD 0

/-- Modelled from the spec: `set(addr)` on the oracle filter saturating-
increments the dedicated 1-bit counter of exactly the key `addr`. -/
def Oracle.set (f : Oracle) (addr : Nat) : Oracle :=
  match f.entries.lookup addr with
  | some c => ⟨f.entries.map (fun e => if e.1 = addr then (e.1, satIncr 1 c) else e)⟩
  | none => ⟨(addr, satIncr 1 0) :: f.entries⟩

/-- Total count of the oracle filter: the sum of its per-key counters. -/
def Oracle.getTotalCount (f : Oracle) : Nat := (f.entries.map Prod.snd).sum

/-- Modelled from the spec: oracle membership at the forced threshold 1. -/
def Oracle.isSet (f : Oracle) (addr : Nat) : Bool :=
  decide (1 ≤ f.getCount addr)

/-- Modelled from the spec: `clear()` of the oracle filter empties the map. -/
def Oracle.clear (_f : Oracle) : Oracle := ⟨[]⟩

/-! ### List helper lemmas -/

theorem getD_set_self (l : List Nat) (i v : Nat) :
    (l.set i v).getD i 0 = if i < l.length then v else 0 := by
  induction l generalizing i with
  | nil => simp
  | cons x xs ih =>
    cases i with
    | zero => simp
    | succ n =>
      simp only [List.set, List.getD_cons_succ, List.length_cons, ih n,
        Nat.succ_lt_succ_iff]

theorem set_getD_self (l : List Nat) (i : Nat) : l.set i (l.getD i 0) = l := by
  induction l generalizing i with
  | nil => simp
  | cons x xs ih =>
    cases i with
    | zero => simp
    | succ n => simpa [List.getD] using ih n

theorem getD_zipWith (g : Nat → Nat → Nat) (l1 l2 : List Nat) (i : Nat)
    (h1 : i < l1.length) (h2 : i < l2.length) :
    (List.zipWith g l1 l2).getD i 0 = g (l1.getD i 0) (l2.getD i 0) := by
  induction l1 generalizing l2 i with
  | nil => simp at h1
  | cons x xs ih =>
    cases l2 with
    | nil => simp at h2
    | cons y ys =>
      cases i with
      | zero => simp
      | succ n =>
        simp only [List.zipWith, List.getD_cons_succ]
        exact ih ys n (by simp at h1; omega) (by simp at h2; omega)

theorem sum_map_zero (l : List Nat) : (l.map (fun _ => (0 : Nat))).sum = 0 := by
  induction l with
  | nil => rfl
  | cons x xs ih => simp [ih]

theorem getD_replicate_zero (n i : Nat) :
    (List.replicate n (0 : Nat)).getD i 0 = 0 := by
  induction n generalizing i with
  | zero => simp
  | succ m ih => cases i <;> simp [List.replicate, ih]

/-! ### C1: merge is a pointwise saturating add that leaves the argument
filter untouched -/

/-- C1: for two base filters of the same size whose tables have the declared
length, a successful merge makes every caller counter the saturating sum
`min (a[i] + b[i], ceiling)`, and returns the argument filter unchanged. -/
theorem merge_saturating_add (a b a2 b2 : Base)
    (hwa : a.filter.length = a.size) (hwb : b.filter.length = b.size)
    (hm : Base.merge a b = some (a2, b2)) :
    (∀ i, i < a.size →
      a2.getCountIndex i =
        min (a.getCountIndex i + b.getCountIndex i) (ceilOf a.numBits)) ∧
    b2 = b := by
  unfold Base.merge at hm
  split at hm
  · rename_i hsz
    simp only [Option.some.injEq, Prod.mk.injEq] at hm
    obtain ⟨ha2, hb2⟩ := hm
    refine ⟨?_, hb2.symm⟩
    intro i hi
    rw [← ha2]
    show (List.zipWith _ a.filter b.filter).getD i 0 = _
    rw [getD_zipWith _ _ _ i (by omega) (by omega)]
    rfl
  · exact absurd hm (by simp)

/-- C1 witness: concrete merge of two 2-entry width-2 filters; the counter
1 + 3 saturates at the ceiling 3, and the argument filter comes back
unchanged. -/
theorem merge_saturating_add_witness :
    ([1, 3] : List Nat).length = (2 : Nat) ∧
    ([3, 1] : List Nat).length = (2 : Nat) ∧
    Base.merge ⟨2, 6, 2, 2, [1, 3]⟩ ⟨2, 6, 2, 2, [3, 1]⟩ =
      some (⟨2, 6, 2, 2, [3, 3]⟩, ⟨2, 6, 2, 2, [3, 1]⟩) ∧
    (Base.getCountIndex ⟨2, 6, 2, 2, [3, 3]⟩ 0 =
      min (Base.getCountIndex ⟨2, 6, 2, 2, [1, 3]⟩ 0 +
        Base.getCountIndex ⟨2, 6, 2, 2, [3, 1]⟩ 0) (ceilOf 2)) :=
  ⟨by decide, by decide, by decide,
    (merge_saturating_add ⟨2, 6, 2, 2, [1, 3]⟩ ⟨2, 6, 2, 2, [3, 1]⟩
      ⟨2, 6, 2, 2, [3, 3]⟩ ⟨2, 6, 2, 2, [3, 1]⟩
      (by decide) (by decide) (by decide)).1 0 (by decide)⟩

/-! ### C2: merging filters of different sizes always fails -/

/-- C2: merging two base filters constructed with different `size` values
always fails (the fatal size assertion, modelled as `none`); the block
filter, which merges through the shared base merge, fails likewise. -/
theorem merge_size_mismatch :
    (∀ a b : Base, a.size ≠ b.size → Base.merge a b = none) ∧
    (∀ a b : Block, a.size ≠ b.size → Block.merge a b = none) := by
  have hbase : ∀ a b : Base, a.size ≠ b.size → Base.merge a b = none := by
    intro a b h
    unfold Base.merge
    exact if_neg h
  refine ⟨hbase, ?_⟩
  intro a b h
  unfold Block.merge
  rw [hbase a.toBase b.toBase h]

/-- C2 witness: a 3-slot filter refuses to merge with a 4-slot filter, and
likewise for two block filters of sizes 16 and 17. -/
theorem merge_size_mismatch_witness :
    ((3 : Nat) ≠ (4 : Nat) ∧
      Base.merge ⟨3, 6, 1, 1, [0, 0, 0]⟩ ⟨4, 6, 1, 1, [0, 0, 0, 0]⟩ = none) ∧
    ((16 : Nat) ≠ (17 : Nat) ∧
      Block.merge ⟨⟨16, 6, 1, 1, List.replicate 16 0⟩, [0], [4]⟩
        ⟨⟨17, 6, 1, 1, List.replicate 17 0⟩, [0], [4]⟩ = none) :=
  ⟨⟨by decide,
    merge_size_mismatch.1 ⟨3, 6, 1, 1, [0, 0, 0]⟩ ⟨4, 6, 1, 1, [0, 0, 0, 0]⟩
      (by decide)⟩,
   ⟨by decide,
    merge_size_mismatch.2 ⟨⟨16, 6, 1, 1, List.replicate 16 0⟩, [0], [4]⟩
      ⟨⟨17, 6, 1, 1, List.replicate 17 0⟩, [0], [4]⟩ (by decide)⟩⟩

/-! ### C3: the XOR-folding index function -/

/-- The spec's wording of the index computation: shift the address right by
`offsetBits`, extract for each mask `(lsb, width)` the field
`(shifted >> lsb) & ((1 << width) - 1)` and XOR all extracted fields
together. -/
def specFoldIndex (lsbs sizes : List Nat) (offsetBits addr : Nat) : Nat :=
  ((lsbs.zip sizes).map
    (fun m => ((addr >>> offsetBits) >>> m.1) &&& ((1 <<< m.2) - 1))).foldr
    (fun x y => x ^^^ y) 0

theorem foldl_xor (l : List Nat) (acc : Nat) :
    l.foldl (fun x y => x ^^^ y) acc = acc ^^^ l.foldr (fun x y => x ^^^ y) 0 := by
  induction l generalizing acc with
  | nil => simp
  | cons x xs ih =>
    simp only [List.foldl_cons, List.foldr_cons, ih (acc ^^^ x)]
    rw [Nat.xor_assoc]

/-- C3: the block filter's index function is exactly the spec's XOR fold of
the extracted mask fields of the shifted address; concretely, with masks
`[(1,1),(3,1)]` and `offsetBits = 0`, addresses 2 and 3 both map to index 1,
so from the freshly constructed filter `set 2` then `set 3` drives both
`getCount 2` and `getCount 3` to 2. -/
theorem fold_hash_index :
    (∀ (f : Block) (addr : Nat),
      f.hash addr = specFoldIndex f.masksLSBs f.masksSizes f.offsetBits addr) ∧
    (Block.construct ⟨⟨16, 0, 4, 1⟩, [1, 3], [1, 1]⟩ =
      some ⟨⟨16, 0, 4, 1, List.replicate 16 0⟩, [1, 3], [1, 1]⟩ ∧
     Block.hash ⟨⟨16, 0, 4, 1, List.replicate 16 0⟩, [1, 3], [1, 1]⟩ 2 = 1 ∧
     Block.hash ⟨⟨16, 0, 4, 1, List.replicate 16 0⟩, [1, 3], [1, 1]⟩ 3 = 1 ∧
     ((Block.set (Block.set
         ⟨⟨16, 0, 4, 1, List.replicate 16 0⟩, [1, 3], [1, 1]⟩ 2) 3).getCount 2
       = 2 ∧
      (Block.set (Block.set
         ⟨⟨16, 0, 4, 1, List.replicate 16 0⟩, [1, 3], [1, 1]⟩ 2) 3).getCount 3
       = 2)) := by
  constructor
  · intro f addr
    unfold Block.hash specFoldIndex
    rw [← List.foldl_map
      (fun m : Nat × Nat => extractField (addr >>> f.offsetBits) m.1 m.2)
      (fun x y => x ^^^ y), foldl_xor, Nat.zero_xor]
    rfl
  · refine ⟨by decide, by decide, by decide, by decide, by decide⟩

/-! ### C4: membership is exactly counter-at-or-above-threshold -/

/-- C4: for every variant, `isSet` holds exactly when the counter the address
maps to has reached the threshold; with `threshold = 2` one `set` from the
cleared state leaves the entry unset and a second `set` of the same address
sets it (shown on the base-table filter of `base.test.cc` and on the block
filter). -/
theorem threshold_correctness :
    (∀ (f : Base) (i : Nat),
      f.isSetIndex i = true ↔ f.threshold ≤ f.getCountIndex i) ∧
    (∀ (f : Block) (addr : Nat),
      f.isSet addr = true ↔ f.threshold ≤ f.getCount addr) ∧
    (∀ (f : Oracle) (addr : Nat),
      f.isSet addr = true ↔ 1 ≤ f.getCount addr) ∧
    (((Base.init ⟨3, 6, 2, 2⟩).setIndex 0).isSetIndex 0 = false ∧
     (((Base.init ⟨3, 6, 2, 2⟩).setIndex 0).setIndex 0).isSetIndex 0 = true) ∧
    ((Block.set ⟨⟨16, 6, 2, 2, List.replicate 16 0⟩, [0], [4]⟩ 0).isSet 0
       = false ∧
     ((Block.set ⟨⟨16, 6, 2, 2, List.replicate 16 0⟩, [0], [4]⟩ 0).set 0).isSet
       0 = true) := by
  refine ⟨?_, ?_, ?_, ⟨by decide, by decide⟩, ⟨by decide, by decide⟩⟩
  · intro f i; simp [Base.isSetIndex]
  · intro f addr; simp [Block.isSet]
  · intro f addr; simp [Oracle.isSet]

/-! ### C5: counters stay in range and saturate -/

theorem setIndex_bound (f : Base) (i : Nat)
    (hf : ∀ c ∈ f.filter, c ≤ ceilOf f.numBits) :
    ∀ c ∈ (f.setIndex i).filter, c ≤ ceilOf f.numBits := by
  intro c hc
  rcases List.mem_or_eq_of_mem_set hc with h | h
  · exact hf c h
  · subst h
    exact Nat.min_le_right _ _

theorem foldl_setIndex_bound (ops : List Nat) (f : Base)
    (hf : ∀ c ∈ f.filter, c ≤ ceilOf f.numBits) :
    ∀ c ∈ (ops.foldl Base.setIndex f).filter, c ≤ ceilOf f.numBits := by
  induction ops generalizing f with
  | nil => exact hf
  | cons o os ih =>
    intro c hc
    exact ih (f.setIndex o) (setIndex_bound f o hf) c hc

/-- C5: after any sequence of `set` calls on a freshly constructed table,
every counter lies in `[0, 2^counterWidth - 1]`; and `set` on a slot that
already holds the ceiling changes neither the table nor the total count. -/
theorem saturation_invariant :
    (∀ (p : BaseParams) (ops : List Nat) (c : Nat),
      c ∈ (ops.foldl Base.setIndex (Base.init p)).filter →
        c ≤ ceilOf p.numBits) ∧
    (∀ (f : Base) (i : Nat), f.getCountIndex i = ceilOf f.numBits →
      (f.setIndex i).filter = f.filter ∧
      (f.setIndex i).getTotalCount = f.getTotalCount) := by
  constructor
  · intro p ops c hc
    refine foldl_setIndex_bound ops (Base.init p) ?_ c hc
    intro x hx
    rw [List.eq_of_mem_replicate hx]
    exact Nat.zero_le _
  · intro f i h
    have hs : f.filter.set i (satIncr f.numBits (f.filter.getD i 0)) =
        f.filter := by
      have : satIncr f.numBits (f.filter.getD i 0) = f.filter.getD i 0 := by
        unfold Base.getCountIndex at h
        rw [satIncr, h, Nat.min_eq_right (Nat.le_succ _)]
      rw [this, set_getD_self]
    refine ⟨hs, ?_⟩
    unfold Base.getTotalCount Base.setIndex
    rw [hs]

/-- C5 witness: with a 2-bit-counter table (`ceiling = 3`) four `set` calls
on slot 0 leave its counter at the ceiling, and a further `set` on the
saturated slot changes nothing. -/
theorem saturation_invariant_witness :
    (3 ∈ (([0, 0, 0, 0] : List Nat).foldl Base.setIndex
        (Base.init ⟨3, 6, 2, 2⟩)).filter ∧ 3 ≤ ceilOf 2) ∧
    ((Base.getCountIndex ⟨3, 6, 2, 2, [3, 0, 0]⟩ 0 = ceilOf 2) ∧
     (Base.setIndex ⟨3, 6, 2, 2, [3, 0, 0]⟩ 0).filter =
       (⟨3, 6, 2, 2, [3, 0, 0]⟩ : Base).filter ∧
     (Base.setIndex ⟨3, 6, 2, 2, [3, 0, 0]⟩ 0).getTotalCount =
       Base.getTotalCount ⟨3, 6, 2, 2, [3, 0, 0]⟩) :=
  ⟨⟨by decide, saturation_invariant.1 ⟨3, 6, 2, 2⟩ [0, 0, 0, 0] 3 (by decide)⟩,
   ⟨by decide, saturation_invariant.2 ⟨3, 6, 2, 2, [3, 0, 0]⟩ 0 (by decide)⟩⟩

/-! ### C6: invalid configurations abort construction -/

/-- C6: block-filter construction fails (no filter object) on an empty mask
list, on mask-descriptor lists of different lengths, and on any mask that
reads past the address width or is wider than `log2 size`; oracle-filter
construction fails whenever `size`, `counterWidth` or `threshold` differs
from 1. -/
theorem construction_validation :
    (∀ p : BlockParams, p.masksLSBs.length = 0 → Block.construct p = none) ∧
    (∀ p : BlockParams, p.masksLSBs.length ≠ p.masksSizes.length →
      Block.construct p = none) ∧
    (∀ p : BlockParams,
      (∃ m ∈ p.masksLSBs.zip p.masksSizes,
        addrBits < m.1 + m.2 ∨ floorLog2 p.size < m.2) →
      Block.construct p = none) ∧
    (∀ p : BaseParams, (p.size ≠ 1 ∨ p.numBits ≠ 1 ∨ p.threshold ≠ 1) →
      Oracle.construct p = none) := by
  refine ⟨?_, ?_, ?_, ?_⟩
  · intro p h
    simp [Block.construct, Block.validParams, h]
  · intro p h
    have hA : decide (p.masksLSBs.length = p.masksSizes.length) = false :=
      decide_eq_false h
    simp [Block.construct, Block.validParams, hA]
  · intro p h
    obtain ⟨m, hm, hbad⟩ := h
    have hall : (p.masksLSBs.zip p.masksSizes).all
        (fun m => decide (m.1 + m.2 ≤ addrBits) &&
          decide (m.2 ≤ floorLog2 p.size)) = false := by
      rw [List.all_eq_false]
      refine ⟨m, hm, ?_⟩
      rcases hbad with h1 | h1 <;> simp [Nat.not_le.mpr h1]
    simp [Block.construct, Block.validParams, hall]
  · intro p h
    unfold Oracle.construct
    rw [if_neg]
    rintro ⟨h1, h2, h3⟩
    rcases h with h | h | h <;> contradiction

/-- C6 witness: the four rejected block configurations of the death tests
(no mask; LSB list longer than the width list; a 60-bit mask against a
16-slot table; a mask reaching bit 65 of a 64-bit address) and a 2-slot
oracle configuration all fail to construct. -/
theorem construction_validation_witness :
    (([] : List Nat).length = 0 ∧
      Block.construct ⟨⟨16, 6, 1, 1⟩, [], []⟩ = none) ∧
    (([0, 10] : List Nat).length ≠ ([5] : List Nat).length ∧
      Block.construct ⟨⟨16, 6, 1, 1⟩, [0, 10], [5]⟩ = none) ∧
    ((∃ m ∈ ([3] : List Nat).zip ([60] : List Nat),
        addrBits < m.1 + m.2 ∨ floorLog2 16 < m.2) ∧
      Block.construct ⟨⟨16, 6, 1, 1⟩, [3], [60]⟩ = none) ∧
    ((∃ m ∈ ([60] : List Nat).zip ([5] : List Nat),
        addrBits < m.1 + m.2 ∨ floorLog2 16 < m.2) ∧
      Block.construct ⟨⟨16, 6, 1, 1⟩, [60], [5]⟩ = none) ∧
    (((2 : Nat) ≠ 1 ∨ (1 : Nat) ≠ 1 ∨ (1 : Nat) ≠ 1) ∧
      Oracle.construct ⟨2, 6, 1, 1⟩ = none) :=
  ⟨⟨by decide, construction_validation.1 ⟨⟨16, 6, 1, 1⟩, [], []⟩ (by decide)⟩,
   ⟨by decide,
    construction_validation.2.1 ⟨⟨16, 6, 1, 1⟩, [0, 10], [5]⟩ (by decide)⟩,
   ⟨by decide,
    construction_validation.2.2.1 ⟨⟨16, 6, 1, 1⟩, [3], [60]⟩ (by decide)⟩,
   ⟨by decide,
    construction_validation.2.2.1 ⟨⟨16, 6, 1, 1⟩, [60], [5]⟩ (by decide)⟩,
   ⟨by decide,
    construction_validation.2.2.2 ⟨2, 6, 1, 1⟩ (Or.inl (by decide))⟩⟩

/-! ### C7: the oracle filter has no collisions and saturates at 1 -/

theorem lookup_map_update_ne (l : List (Nat × Nat)) (a a2 v : Nat)
    (h : a2 ≠ a) :
    (l.map (fun e => if e.1 = a then (e.1, v) else e)).lookup a2 =
      l.lookup a2 := by
  induction l with
  | nil => rfl
  | cons x xs ih =>
    obtain ⟨k, c⟩ := x
    simp only [List.map_cons]
    by_cases hk : k = a
    · subst hk
      rw [if_pos rfl]
      have hne : (a2 == k) = false := by simp [h]
      simp [List.lookup, hne, ih]
    · rw [if_neg (by simpa using hk)]
      by_cases ha2 : a2 = k
      · subst ha2
        simp [List.lookup]
      · have hne : (a2 == k) = false := by simp [ha2]
        simp [List.lookup, hne, ih]

/-- C7: `set` on the oracle filter never changes the count of any distinct
address; concretely, from the constructed oracle filter, `set 0` leaves
`getCount 1` and `getCount 2` at 0, and `set 0` twice leaves
`getCount 0 = 1` and `getTotalCount = 1` (the 1-bit counter saturates). -/
theorem oracle_exactness :
    (∀ (f : Oracle) (a a2 : Nat), a2 ≠ a →
      (f.set a).getCount a2 = f.getCount a2) ∧
    (Oracle.construct ⟨1, 6, 1, 1⟩ = some ⟨[]⟩ ∧
     (Oracle.set (Oracle.set ⟨[]⟩ 0) 0).getCount 0 = 1 ∧
     (Oracle.set (Oracle.set ⟨[]⟩ 0) 0).getTotalCount = 1 ∧
     (Oracle.set ⟨[]⟩ 0).getCount 1 = 0 ∧
     (Oracle.set ⟨[]⟩ 0).getCount 2 = 0) := by
  constructor
  · intro f a a2 h
    unfold Oracle.set Oracle.getCount
    cases hl : f.entries.lookup a with
    | some c =>
      simp only [hl]
      rw [lookup_map_update_ne f.entries a a2 _ h]
    | none =>
      have hne : (a2 == a) = false := by simp [h]
      simp only [hl]
      simp [List.lookup, hne]
  · exact ⟨by decide, by decide, by decide, by decide, by decide⟩

/-- C7 witness: setting address 0 in the empty oracle filter leaves the count
of the distinct address 1 unchanged at 0. -/
theorem oracle_exactness_witness :
    (1 : Nat) ≠ 0 ∧
    (Oracle.set ⟨[]⟩ 0).getCount 1 = Oracle.getCount ⟨[]⟩ 1 :=
  ⟨by decide, oracle_exactness.1 ⟨[]⟩ 0 1 (by decide)⟩

/-! ### C8: total count is always the sum of the counters -/

theorem sum_replicate_zero (n : Nat) : (List.replicate n (0 : Nat)).sum = 0 := by
  induction n with
  | zero => rfl
  | succ m ih => simp [List.replicate, ih]

/-- C8: at every observable point the total count is the sum of the
individual counters: in general, right after construction (= 0), right after
`clear()` (= 0, every counter having been reset), and on both outcomes of a
merge. -/
theorem total_count_additivity :
    (∀ f : Base, f.getTotalCount = f.filter.sum) ∧
    (∀ p : BaseParams, (Base.init p).getTotalCount = 0) ∧
    (∀ f : Base, f.clear.getTotalCount = 0) ∧
    (∀ f : Block, f.clear.getTotalCount = 0) ∧
    (∀ a b a2 b2 : Base, Base.merge a b = some (a2, b2) →
      a2.getTotalCount = a2.filter.sum ∧ b2.getTotalCount = b2.filter.sum) ∧
    (∀ f : Oracle, f.getTotalCount = (f.entries.map Prod.snd).sum) ∧
    (∀ f : Oracle, f.clear.getTotalCount = 0) := by
  refine ⟨fun f => rfl, ?_, ?_, ?_, ?_, fun f => rfl, fun f => rfl⟩
  · intro p
    exact sum_replicate_zero p.size
  · intro f
    exact sum_map_zero f.filter
  · intro f
    exact sum_map_zero f.toBase.filter
  · intro a b a2 b2 _
    exact ⟨rfl, rfl⟩

/-- C8 witness: the concrete merge of the C1 witness keeps both totals equal
to the sums of their tables. -/
theorem total_count_additivity_witness :
    Base.merge ⟨2, 6, 2, 2, [1, 3]⟩ ⟨2, 6, 2, 2, [3, 1]⟩ =
      some (⟨2, 6, 2, 2, [3, 3]⟩, ⟨2, 6, 2, 2, [3, 1]⟩) ∧
    (Base.getTotalCount ⟨2, 6, 2, 2, [3, 3]⟩ = ([3, 3] : List Nat).sum ∧
     Base.getTotalCount ⟨2, 6, 2, 2, [3, 1]⟩ = ([3, 1] : List Nat).sum) :=
  ⟨by decide,
   total_count_additivity.2.2.2.2.1 ⟨2, 6, 2, 2, [1, 3]⟩ ⟨2, 6, 2, 2, [3, 1]⟩
     ⟨2, 6, 2, 2, [3, 3]⟩ ⟨2, 6, 2, 2, [3, 1]⟩ (by decide)⟩

/-! ### C9: unset is a floored decrement and can create false negatives -/

theorem init_getCountIndex (p : BaseParams) (i : Nat) :
    (Base.init p).getCountIndex i = 0 := getD_replicate_zero p.size i

theorem unsetIndex_getCountIndex (f : Base) (i : Nat) :
    (f.unsetIndex i).getCountIndex i = f.getCountIndex i - 1 := by
  unfold Base.unsetIndex Base.getCountIndex
  show (f.filter.set i (f.filter.getD i 0 - 1)).getD i 0 = _
  rw [getD_set_self]
  split
  · rfl
  · rename_i hlen
    rw [List.getD_eq_default _ _ (by omega)]

/-- C9: `unset(addr)` on the block filter decrements the counter `addr` maps
to by 1, floored at 0; concretely, addresses 0 and 1 alias under the default
configuration, so after `set 0; set 1; unset 1` the never-removed address 0
reads as not set (the deliberate false negative of the test). -/
theorem unset_floor_decrement :
    (∀ (f : Block) (addr : Nat),
      (f.unset addr).getCount addr = f.getCount addr - 1) ∧
    (Block.construct ⟨⟨16, 6, 1, 1⟩, [0], [4]⟩ =
      some ⟨⟨16, 6, 1, 1, List.replicate 16 0⟩, [0], [4]⟩ ∧
     ((Block.set (Block.set
         ⟨⟨16, 6, 1, 1, List.replicate 16 0⟩, [0], [4]⟩ 0) 1).isSet 0
       = true ∧
      (Block.unset (Block.set (Block.set
         ⟨⟨16, 6, 1, 1, List.replicate 16 0⟩, [0], [4]⟩ 0) 1) 1).isSet 0
       = false)) := by
  constructor
  · intro f addr
    exact unsetIndex_getCountIndex f.toBase (f.hash addr)
  · exact ⟨by decide, by decide, by decide⟩

/-! ### C10: every variant is constructed fully cleared -/

/-- C10: immediately after a successful construction with a valid
configuration (`threshold ≥ 1`), the total count is 0 and no address reads
as set, for the base table, the block filter and the oracle filter. -/
theorem constructed_cleared :
    (∀ (p : BlockParams) (f : Block), 1 ≤ p.threshold →
      Block.construct p = some f →
      f.getTotalCount = 0 ∧ ∀ addr, f.isSet addr = false) ∧
    (∀ (p : BaseParams) (f : Oracle), Oracle.construct p = some f →
      f.getTotalCount = 0 ∧ ∀ addr, f.isSet addr = false) ∧
    (∀ p : BaseParams, 1 ≤ p.threshold →
      (Base.init p).getTotalCount = 0 ∧
      ∀ i, (Base.init p).isSetIndex i = false) := by
  refine ⟨?_, ?_, ?_⟩
  · intro p f ht hc
    unfold Block.construct at hc
    split at hc
    · simp only [Option.some.injEq] at hc
      subst hc
      constructor
      · exact sum_replicate_zero p.size
      · intro addr
        have hts : ¬ p.threshold ≤ 0 := by omega
        simp [Block.isSet, Block.getCount, Base.init, Base.getCountIndex,
          getD_replicate_zero, hts]
    · exact absurd hc (by simp)
  · intro p f hc
    unfold Oracle.construct at hc
    split at hc
    · simp only [Option.some.injEq] at hc
      subst hc
      exact ⟨rfl, fun addr => rfl⟩
    · exact absurd hc (by simp)
  · intro p ht
    constructor
    · exact sum_replicate_zero p.size
    · intro i
      have hts : ¬ p.threshold ≤ 0 := by omega
      simp [Base.isSetIndex, Base.init, Base.getCountIndex,
        getD_replicate_zero, hts]

/-- C10 witness: the default block, oracle and base-table configurations of
the tests construct with total count 0 and address 0 unset. -/
theorem constructed_cleared_witness :
    ((1 : Nat) ≤ 1 ∧
     Block.construct ⟨⟨16, 6, 1, 1⟩, [0], [4]⟩ =
       some ⟨⟨16, 6, 1, 1, List.replicate 16 0⟩, [0], [4]⟩ ∧
     Block.getTotalCount ⟨⟨16, 6, 1, 1, List.replicate 16 0⟩, [0], [4]⟩ = 0 ∧
     Block.isSet ⟨⟨16, 6, 1, 1, List.replicate 16 0⟩, [0], [4]⟩ 0 = false) ∧
    (Oracle.construct ⟨1, 6, 1, 1⟩ = some ⟨[]⟩ ∧
     Oracle.getTotalCount ⟨[]⟩ = 0 ∧ Oracle.isSet ⟨[]⟩ 0 = false) ∧
    ((1 : Nat) ≤ 1 ∧ (Base.init ⟨3, 6, 1, 1⟩).getTotalCount = 0 ∧
     (Base.init ⟨3, 6, 1, 1⟩).isSetIndex 0 = false) :=
  ⟨⟨by decide, by decide,
    (constructed_cleared.1 ⟨⟨16, 6, 1, 1⟩, [0], [4]⟩
      ⟨⟨16, 6, 1, 1, List.replicate 16 0⟩, [0], [4]⟩ (by decide) (by decide)).1,
    (constructed_cleared.1 ⟨⟨16, 6, 1, 1⟩, [0], [4]⟩
      ⟨⟨16, 6, 1, 1, List.replicate 16 0⟩, [0], [4]⟩ (by decide) (by decide)).2
      0⟩,
   ⟨by decide,
    (constructed_cleared.2.1 ⟨1, 6, 1, 1⟩ ⟨[]⟩ (by decide)).1,
    (constructed_cleared.2.1 ⟨1, 6, 1, 1⟩ ⟨[]⟩ (by decide)).2 0⟩,
   ⟨by decide,
    (constructed_cleared.2.2 ⟨3, 6, 1, 1⟩ (by decide)).1,
    (constructed_cleared.2.2 ⟨3, 6, 1, 1⟩ (by decide)).2 0⟩⟩
